import Mathlib

/-!
Verification of the clash-sim village validator and structure resolver
(src/main.py) against its specification.

The embedding models Python JSON-ish values with an inductive type `JVal`
(dicts and lists carry their own spine types `JObj` and `JArr` so that
equality is structurally decidable).  Numeric JSON values that the claims
touch (counts, levels, coordinates, sizes) are integers and are modelled as
`Int`.  Fallible Python operations (raising KeyError, TypeError,
AttributeError, IndexError, ValueError, or a file-not-found) are modelled
with `Except String`; the message records which Python exception the source
would raise.  Python floor division (the `//` operator) is `Int.fdiv` and
the `%` operator (used only with the positive divisor 2) is `Int.emod`.
Python `==` between JSON values is structural equality; dict comparison is
thereby modelled order-sensitively, which no claim exercises (the source
compares only position lists and None values).
-/

deriving instance DecidableEq for Except

namespace ClashSim

mutual
/-- A JSON-like Python value: None, int, str, list, dict. -/
inductive JVal where
  | null : JVal
  | int : Int → JVal
  | str : String → JVal
  | arr : JArr → JVal
  | obj : JObj → JVal
deriving DecidableEq
/-- The spine of a JSON list. -/
inductive JArr where
  | nil : JArr
  | cons : JVal → JArr → JArr
deriving DecidableEq
/-- The spine of a JSON dict, in insertion order. -/
inductive JObj where
  | nil : JObj
  | cons : String → JVal → JObj → JObj
deriving DecidableEq
end

/-- View a JSON list as a Lean list of values. -/
def JArr.toList : JArr → List JVal
  | JArr.nil => []
  | JArr.cons v rest => v :: JArr.toList rest

/-- Build a JSON list from a Lean list of values. -/
def JArr.ofList : List JVal → JArr
  | [] => JArr.nil
  | v :: rest => JArr.cons v (JArr.ofList rest)

/-- View a JSON dict as a Lean association list. -/
def JObj.toList : JObj → List (String × JVal)
  | JObj.nil => []
  | JObj.cons k v rest => (k, v) :: JObj.toList rest

/-- Build a JSON dict from a Lean association list. -/
def JObj.ofList : List (String × JVal) → JObj
  | [] => JObj.nil
  | (k, v) :: rest => JObj.cons k v (JObj.ofList rest)

/-- Shorthand for writing dict values. -/
def JVal.mkObj (l : List (String × JVal)) : JVal :=
  JVal.obj (JObj.ofList l)

/-- Shorthand for writing list values. -/
def JVal.mkArr (l : List JVal) : JVal :=
  JVal.arr (JArr.ofList l)

/-- A Python dict with string keys, in insertion order. -/
abbrev Obj := List (String × JVal)

/-- Python `d.get(k)` on a dict: the value, or None when the key is absent. -/
def Obj.get (o : Obj) (k : String) : JVal :=
  match o.find? (fun kv => kv.1 == k) with
  | some kv => kv.2
  | none => JVal.null

/-- Python `k in d` on a dict with string keys. -/
def Obj.hasKey (o : Obj) (k : String) : Bool :=
  o.any (fun kv => kv.1 == k)

/-- Python dict assignment `d[k] = v`: overwrite in place, or append. -/
def Obj.insert : Obj → String → JVal → Obj
  | [], k, v => [(k, v)]
  | (k1, v1) :: rest, k, v =>
    if k1 == k then (k1, v) :: rest else (k1, v1) :: Obj.insert rest k v

/-- Python `d.update(kvs)`: assign each pair in order. -/
def Obj.update (o : Obj) (kvs : List (String × JVal)) : Obj :=
  kvs.foldl (fun a kv => Obj.insert a kv.1 kv.2) o

/-- Python `v.get(k)` where `v` may not be a dict (AttributeError then). -/
def JVal.getE : JVal → String → Except String JVal
  | .obj kvs, k => Except.ok (Obj.get kvs.toList k)
  | _, _ => Except.error "AttributeError: object has no attribute get"

/-- Python subscript `v[k]` with a string key: KeyError when a dict lacks the
key, TypeError when `v` is not a dict. -/
def JVal.index : JVal → String → Except String JVal
  | .obj kvs, k =>
    match kvs.toList.find? (fun kv => kv.1 == k) with
    | some kv => Except.ok kv.2
    | none => Except.error "KeyError"
  | _, _ => Except.error "TypeError: object is not subscriptable"

/-- Python subscript `v[i]` with an int index on a list. -/
def JVal.atIdx : JVal → Nat → Except String JVal
  | .arr xs, i =>
    match xs.toList.get? i with
    | some v => Except.ok v
    | none => Except.error "IndexError: list index out of range"
  | _, _ => Except.error "TypeError: object is not subscriptable"

/-- Python `v.items()`: the pairs of a dict; AttributeError otherwise
(in particular when `v` is None because a `.get` found nothing). -/
def JVal.items : JVal → Except String Obj
  | .obj kvs => Except.ok kvs.toList
  | _ => Except.error "AttributeError: object has no attribute items"

/-- Accumulate decimal digits; none when a non-digit appears or no digit was
read. -/
def digitsToNat : List Char → Option Nat → Option Nat
  | [], acc => acc
  | c :: cs, acc =>
    if c.isDigit then
      match acc with
      | none => digitsToNat cs (some (c.toNat - 48))
      | some n => digitsToNat cs (some (n * 10 + (c.toNat - 48)))
    else none

/-- Parse a decimal integer literal, an optional minus sign then digits. -/
def strToInt (s : String) : Option Int :=
  match s.data with
  | '-' :: rest => (digitsToNat rest none).map (fun n => -(n : Int))
  | ds => (digitsToNat ds none).map (fun n => (n : Int))

/-- Python `int(v)`: ints pass through, numeric strings parse, anything else
raises.  Strings with surrounding whitespace or a leading plus sign are not
modelled (no claim uses them). -/
def pyInt : JVal → Except String Int
  | .int n => Except.ok n
  | .str s =>
    match strToInt s with
    | some n => Except.ok n
    | none => Except.error "ValueError: invalid literal for int"
  | _ => Except.error "TypeError: int() argument"

/-- Python `str(v)` for the values a building level can be.  Printing of
containers is not modelled (levels are ints or strings in the data). -/
def pyStr : JVal → String
  | .null => "None"
  | .int n => toString n
  | .str s => s
  | .arr _ => "[list]"
  | .obj _ => "[dict]"

/-- An arithmetic operand: the source only adds and divides ints. -/
def pyIntVal : JVal → Except String Int
  | .int n => Except.ok n
  | _ => Except.error "TypeError: unsupported operand type"

/-- Python `max(levels)` on a list of ints. -/
def pyMax : List Int → Except String Int
  | [] => Except.error "ValueError: max() arg is an empty sequence"
  | x :: xs => Except.ok (xs.foldl max x)

/-- Whether a value may be a dict key (lists and dicts are unhashable). -/
def jHashable : JVal → Bool
  | .arr _ => false
  | .obj _ => false
  | _ => true

/-- Error-propagating map over a list, used for Python for-loops that build a
list and can raise. -/
def mapExcept (f : α → Except String β) : List α → Except String (List β)
  | [] => Except.ok []
  | x :: xs => do
    let y ← f x
    let ys ← mapExcept f xs
    Except.ok (y :: ys)

/-- The warnings validate_village can append; the argument is the building
name interpolated into the corresponding f-string of the source. -/
inductive Warning where
  | overlapping : JVal → Warning
  | notFoundInTownhall : JVal → Warning
  | countNotFound : JVal → Warning
  | countMoreThanAllowed : JVal → Warning
  | levelNotFound : JVal → Warning
  | levelMoreThanAllowed : JVal → Warning
  | notFound : JVal → Warning
  | countLessThanRequired : JVal → Warning
deriving DecidableEq

/-- The state of the single scan loop over the structure list
(validate_village lines 26-45): the verdict so far, the collected warnings,
the townhall structure and previous-townhall catalog record found so far,
the per-kind level lists (`current_buildings`), and the seen position sets. -/
structure ScanState where
  valid : Bool
  warnings : List Warning
  townhall : Option Obj
  previousTownhall : Option JVal
  current : List (JVal × List Int)
  positions : List JVal

def initScan : ScanState :=
  { valid := true, warnings := [], townhall := none, previousTownhall := none,
    current := [], positions := [] }

/-- Append a level to the dict `current_buildings[name]`, inserting the kind
on first sight (keys stay in first-seen order, as for a Python dict). -/
def curInsert : List (JVal × List Int) → JVal → Int → List (JVal × List Int)
  | [], name, lvl => [(name, [lvl])]
  | (k, ls) :: rest, name, lvl =>
    if k == name then (k, ls ++ [lvl]) :: rest
    else (k, ls) :: curInsert rest name lvl

/-- Python list membership `v in xs` via `==`. -/
def containsJ (xs : List JVal) (v : JVal) : Bool :=
  xs.any (fun x => x == v)

/-- Lookup in `current_buildings` by an arbitrary (Python-equal) key. -/
def curLookup (cur : List (JVal × List Int)) (name : JVal) : Option (List Int) :=
  match cur.find? (fun e => e.1 == name) with
  | some e => some e.2
  | none => none

/-- The townhall branch of the scan loop (validate_village lines 30-34): a
townhall building is remembered and, when the cache has townhall data and the
level exceeds 1, the cached townhall entry is subscripted at the previous
level (a KeyError when that level record is absent). -/
def scanTownhallPrev (cache : Obj) (st : ScanState) (b : Obj) (name : JVal) (lvl : Int) :
    Except String (Option Obj × Option JVal) :=
  if name == JVal.str "townhall" then
    if Obj.hasKey cache "townhall" && decide (1 < lvl) then
      match JVal.index (Obj.get cache "townhall") (toString (lvl - 1)) with
      | Except.error e => Except.error e
      | Except.ok p => Except.ok (some b, some p)
    else Except.ok (some b, st.previousTownhall)
  else Except.ok (st.townhall, st.previousTownhall)

/-- One iteration of the scan loop (validate_village lines 26-45): read the
name and int-converted level, run the townhall branch, then group the level
under the name (a TypeError when the name is unhashable) and flag an overlap
when the `positions` value was already seen. -/
def scanBuilding (cache : Obj) (st : ScanState) (b : Obj) : Except String ScanState :=
  match pyInt (Obj.get b "level") with
  | Except.error e => Except.error e
  | Except.ok lvl =>
    match scanTownhallPrev cache st b (Obj.get b "name") lvl with
    | Except.error e => Except.error e
    | Except.ok thPrev =>
      if jHashable (Obj.get b "name") then
        if containsJ st.positions (Obj.get b "positions") then
          Except.ok { valid := false,
                      warnings := st.warnings ++ [Warning.overlapping (Obj.get b "name")],
                      townhall := thPrev.1, previousTownhall := thPrev.2,
                      current := curInsert st.current (Obj.get b "name") lvl,
                      positions := st.positions }
        else
          Except.ok { valid := st.valid, warnings := st.warnings,
                      townhall := thPrev.1, previousTownhall := thPrev.2,
                      current := curInsert st.current (Obj.get b "name") lvl,
                      positions := st.positions ++ [Obj.get b "positions"] }
      else Except.error "TypeError: unhashable type"

/-- The whole scan loop. -/
def scanList (cache : Obj) (st : ScanState) : List Obj → Except String ScanState
  | [] => Except.ok st
  | b :: bs => do
    let st2 ← scanBuilding cache st b
    scanList cache st2 bs

/-- Python `combined[key] = combined.get(key, 0) + value` on an int-valued
association list with unique keys. -/
def updAdd : List (String × Int) → String → Int → List (String × Int)
  | [], k, v => [(k, v)]
  | (k1, v1) :: rest, k, v =>
    if k1 == k then (k1, v1 + v) :: rest else (k1, v1) :: updAdd rest k v

/-- Fold one capacity table into the combined table
(the inner loop of validate_village lines 62-64). -/
def combineInto (acc : List (String × Int)) (t : List (String × Int)) : List (String × Int) :=
  t.foldl (fun a kv => updAdd a kv.1 kv.2) acc

/-- The combined table of a list of capacity tables
(the outer loop of validate_village lines 61-64). -/
def combineAllPure (ts : List (List (String × Int))) : List (String × Int) :=
  ts.foldl combineInto []

/-- Read a capacity table value as a dict of ints; a non-dict (in particular
the None a failed `.get` returned) raises when its items are iterated, and a
non-int table value raises when it is added. -/
def toIntTable (v : JVal) : Except String (List (String × Int)) := do
  let kvs ← JVal.items v
  mapExcept (fun kv => do
    let n ← pyIntVal kv.2
    Except.ok (kv.1, n)) kvs

/-- Combine a list of capacity-table values (validate_village lines 60-69 and
105-109): every table must be a dict of ints, and values of a kind appearing
in several tables are summed. -/
def combineAll (vs : List JVal) : Except String (List (String × Int)) := do
  let ts ← mapExcept toIntTable vs
  Except.ok (combineAllPure ts)

/-- Membership of a (Python-equal) building name among a table of string keys. -/
def tblHasKeyJ (t : List (String × Int)) (name : JVal) : Bool :=
  t.any (fun kv => JVal.str kv.1 == name)

/-- Python `table.get(name)` with a possibly non-string name. -/
def tblLookupJ (t : List (String × Int)) (name : JVal) : Option Int :=
  match t.find? (fun kv => JVal.str kv.1 == name) with
  | some kv => some kv.2
  | none => none

/-- The per-kind ceiling checks (validate_village lines 71-93) for one entry
of `current_buildings`: returns whether the entry invalidates the verdict and
the warnings it appends. -/
def ceilingEntry (maxC maxL : List (String × Int)) (name : JVal) (levels : List Int) :
    Except String (Bool × List Warning) := do
  let first :=
    if !(tblHasKeyJ maxC name) && !(name == JVal.str "townhall") then
      (true, [Warning.notFoundInTownhall name])
    else (false, ([] : List Warning))
  match tblLookupJ maxC name with
  | none =>
    if !(name == JVal.str "townhall") then
      Except.ok (first.1, first.2 ++ [Warning.countNotFound name])
    else Except.ok (first.1, first.2)
  | some mc => do
    let second :=
      if (levels.length : Int) > mc then (true, [Warning.countMoreThanAllowed name])
      else (false, ([] : List Warning))
    match tblLookupJ maxL name with
    | none =>
      Except.ok (first.1 || second.1, first.2 ++ second.2 ++ [Warning.levelNotFound name])
    | some ml => do
      let mx ← pyMax levels
      if mx > ml then
        Except.ok (true, first.2 ++ second.2 ++ [Warning.levelMoreThanAllowed name])
      else
        Except.ok (first.1 || second.1, first.2 ++ second.2)

/-- The loop of the ceiling checks over all of `current_buildings`. -/
def ceilingLoop (maxC maxL : List (String × Int)) :
    List (JVal × List Int) → Bool → List Warning → Except String (Bool × List Warning)
  | [], v, ws => Except.ok (v, ws)
  | (name, levels) :: rest, v, ws => do
    let r ← ceilingEntry maxC maxL name levels
    ceilingLoop maxC maxL rest (v && !r.1) (ws ++ r.2)

/-- The floor check (validate_village lines 111-119) for one kind of the
combined minimum-count table: a kind absent from the village warns that the
building was not found; a kind present fewer times than required warns that
its count is less than required. -/
def floorEntry (cur : List (JVal × List Int)) (k : String) (minv : Int) :
    Bool × List Warning :=
  match curLookup cur (JVal.str k) with
  | none => (true, [Warning.notFound (JVal.str k)])
  | some levels =>
    if minv > (levels.length : Int) then
      (true, [Warning.countLessThanRequired (JVal.str k)])
    else (false, [])

/-- The loop of the floor checks over the combined minimum-count table. -/
def floorLoop (cur : List (JVal × List Int)) :
    List (String × Int) → Bool → List Warning → Bool × List Warning
  | [], v, ws => (v, ws)
  | (k, minv) :: rest, v, ws =>
    let r := floorEntry cur k minv
    floorLoop cur rest (v && !r.1) (ws ++ r.2)

/-- The four max-count table keys of a townhall record, in source order. -/
def countKeys : List String :=
  ["max number of resource", "max number of army", "max number of defense",
   "max number of traps"]

/-- The four max-level table keys of a townhall record, in source order. -/
def levelKeys : List String :=
  ["max level of resource", "max level of army", "max level of defense",
   "max level of traps"]

/-- validate_village (src/main.py lines 8-124).  The result is the returned
verdict together with the warning list the source prints; the missing-townhall
early return prints only its diagnostic, so its warning list is empty. -/
def validate_village (buildings : List Obj) (cache : Obj) :
    Except String (Bool × List Warning) := do
  let st ← scanList cache initScan buildings
  match st.townhall with
  | none => Except.ok (false, [])
  | some th => do
    let maxCombinedCount ← combineAll (countKeys.map (Obj.get th))
    let maxCombinedLevel ← combineAll (levelKeys.map (Obj.get th))
    let r1 ← ceilingLoop maxCombinedCount maxCombinedLevel st.current st.valid st.warnings
    match st.previousTownhall with
    | none => Except.ok r1
    | some prev => do
      let minTables ← mapExcept (fun k => JVal.getE prev k) countKeys
      let minCombinedCount ← combineAll minTables
      Except.ok (floorLoop st.current minCombinedCount r1.1 r1.2)

/-- One axis of the center computation (generate_structures_list lines
163-170): the cell-scaled position plus half the footprint, with a half-cell
correction when the footprint dimension of that axis is odd.  `Int.fdiv` is the
Python `//` and `Int.emod` the Python `%`; both divisors in the source are
the literal 2. -/
def centerAxis (pos dim cellSize : Int) : Int :=
  if Int.emod dim 2 != 0 then (pos + Int.fdiv dim 2) * cellSize + Int.fdiv cellSize 2
  else (pos + Int.fdiv dim 2) * cellSize

/-- The center of a structure: the x-axis uses the width, the y-axis the
height, each independently. -/
def computeCenter (px py w h cellSize : Int) : Int × Int :=
  (centerAxis px w cellSize, centerAxis py h cellSize)

/-- Resolve one position of a raw building (the loop body of
generate_structures_list lines 158-185): deep-copy the level-specific catalog
record (a value copy here), compute the center, and attach the resolved
fields; an army camp additionally copies the troops payload of the raw
building. -/
def resolvePosition (cellSize : Int) (b : Obj) (entry : JVal) (name lvlStr : String)
    (sizeJ insetJ typeJ : JVal) (pos : JVal) : Except String Obj := do
  let levRec ← JVal.index entry lvlStr
  let st0 ← JVal.items levRec
  let px ← pyIntVal (← JVal.atIdx pos 0)
  let w ← pyIntVal (← JVal.getE sizeJ "width")
  let py ← pyIntVal (← JVal.atIdx pos 1)
  let h ← pyIntVal (← JVal.getE sizeJ "height")
  let c := computeCenter px py w h cellSize
  let st1 := Obj.update st0
    [("level", JVal.str lvlStr), ("name", JVal.str name), ("type", typeJ),
     ("position", pos), ("center", JVal.mkArr [JVal.int c.1, JVal.int c.2]),
     ("size", sizeJ), ("inset", insetJ)]
  if name = "army camp" then Except.ok (Obj.insert st1 "troops" (Obj.get b "troops"))
  else Except.ok st1

/-- Resolve one raw building (generate_structures_list lines 139-185): fetch
the catalog entry of its kind, take the singleton (x, y) when the catalog
max count is 1 and the declared position list otherwise, and resolve every
position.  A kind that is not in the cache makes the source read a catalog
file; that read is environment interaction and is modelled as the hard
failure the spec assigns to a missing catalog file, so claims always supply a
populated cache.  Iterating a non-list `positions` value is modelled as the
TypeError it raises (the empty-string and empty-dict iterables that Python
would iterate zero times are not modelled; no claim uses them). -/
def resolveBuilding (cache : Obj) (cellSize : Int) (b : Obj) : Except String (List Obj) := do
  let nameJ := Obj.get b "type"
  let lvlStr := pyStr (Obj.get b "level")
  match nameJ with
  | JVal.str name =>
    if Obj.hasKey cache name then do
      let entry := Obj.get cache name
      let sizeJ ← JVal.getE entry "size"
      let insetJ ← JVal.getE entry "inset"
      let typeJ ← JVal.getE entry "type"
      let mcJ ← JVal.getE entry "max count"
      let positions ←
        if mcJ == JVal.int 1 then
          Except.ok [JVal.mkArr [Obj.get b "x", Obj.get b "y"]]
        else
          match Obj.get b "positions" with
          | JVal.arr ps => Except.ok ps.toList
          | _ => Except.error "TypeError: object is not iterable"
      mapExcept (resolvePosition cellSize b entry name lvlStr sizeJ insetJ typeJ) positions
    else Except.error "FileNotFoundError: catalog file not cached"
  | _ => Except.error "TypeError: kind name is not a string"

/-- generate_structures_list (src/main.py lines 127-187). -/
def generate_structures_list (buildings : List Obj) (cache : Obj) (cellSize : Int) :
    Except String (List Obj) := do
  let parts ← mapExcept (resolveBuilding cache cellSize) buildings
  Except.ok parts.flatten

/-! Concrete inputs used by the counterexamples and failing-input
evaluations. -/

/-- A catalog with a townhall and a cannon; the level-1 townhall record
allows up to two cannons at up to level 3. -/
def c1Cache : Obj :=
  [("townhall", JVal.mkObj [
     ("1", JVal.mkObj [
        ("max number of resource", JVal.mkObj []), ("max number of army", JVal.mkObj []),
        ("max number of defense", JVal.mkObj [("cannon", JVal.int 2)]),
        ("max number of traps", JVal.mkObj []),
        ("max level of resource", JVal.mkObj []), ("max level of army", JVal.mkObj []),
        ("max level of defense", JVal.mkObj [("cannon", JVal.int 3)]),
        ("max level of traps", JVal.mkObj [])]),
     ("size", JVal.mkObj [("width", JVal.int 4), ("height", JVal.int 4)]),
     ("inset", JVal.int 0), ("type", JVal.str "other"), ("max count", JVal.int 1)]),
   ("cannon", JVal.mkObj [
     ("1", JVal.mkObj []),
     ("size", JVal.mkObj [("width", JVal.int 3), ("height", JVal.int 3)]),
     ("inset", JVal.int 0), ("type", JVal.str "defense"), ("max count", JVal.int 5)])]

/-- A well-formed village within all limits of `c1Cache`: a level-1 townhall
and one level-1 cannon at distinct grid positions. -/
def c1Village : List Obj :=
  [[("type", JVal.str "townhall"), ("level", JVal.int 1), ("x", JVal.int 20), ("y", JVal.int 20)],
   [("type", JVal.str "cannon"), ("level", JVal.int 1),
    ("positions", JVal.mkArr [JVal.mkArr [JVal.int 5, JVal.int 5]])]]

/-- A building without townhall whose level is None. -/
def c2Bad : Obj := [("name", JVal.str "archer tower"), ("level", JVal.null)]

/-- A level-2 townhall structure. -/
def c3TH : Obj := [("name", JVal.str "townhall"), ("level", JVal.int 2)]

/-- A cache whose townhall entry has a record for level 2 but none for
level 1. -/
def c3Cache : Obj := [("townhall", JVal.mkObj [("2", JVal.mkObj [])])]

/-- A level-1 townhall structure whose eight capacity tables are all empty. -/
def c5TH : Obj :=
  [("name", JVal.str "townhall"), ("level", JVal.int 1),
   ("positions", JVal.mkArr [JVal.int 0]),
   ("max number of resource", JVal.mkObj []), ("max number of army", JVal.mkObj []),
   ("max number of defense", JVal.mkObj []), ("max number of traps", JVal.mkObj []),
   ("max level of resource", JVal.mkObj []), ("max level of army", JVal.mkObj []),
   ("max level of defense", JVal.mkObj []), ("max level of traps", JVal.mkObj [])]

/-- A cannon structure with a position set distinct from the townhall. -/
def c5Cannon : Obj :=
  [("name", JVal.str "cannon"), ("level", JVal.int 1),
   ("positions", JVal.mkArr [JVal.int 1])]

/-- A level-2 townhall structure whose eight capacity tables are all empty. -/
def c6TH : Obj :=
  [("name", JVal.str "townhall"), ("level", JVal.int 2),
   ("positions", JVal.mkArr [JVal.int 0]),
   ("max number of resource", JVal.mkObj []), ("max number of army", JVal.mkObj []),
   ("max number of defense", JVal.mkObj []), ("max number of traps", JVal.mkObj []),
   ("max level of resource", JVal.mkObj []), ("max level of army", JVal.mkObj []),
   ("max level of defense", JVal.mkObj []), ("max level of traps", JVal.mkObj [])]

/-- A cache whose level-1 townhall record requires at least two army camps. -/
def c6Cache : Obj :=
  [("townhall", JVal.mkObj [("1", JVal.mkObj [
     ("max number of resource", JVal.mkObj [("army camp", JVal.int 2)]),
     ("max number of army", JVal.mkObj []),
     ("max number of defense", JVal.mkObj []),
     ("max number of traps", JVal.mkObj [])])])]

/-- A townhall structure that carries seven of the eight capacity tables and
lacks the max-number-of-traps table. -/
def c10TH : Obj :=
  [("name", JVal.str "townhall"), ("level", JVal.int 1),
   ("max number of resource", JVal.mkObj []), ("max number of army", JVal.mkObj []),
   ("max number of defense", JVal.mkObj []),
   ("max level of resource", JVal.mkObj []), ("max level of army", JVal.mkObj []),
   ("max level of defense", JVal.mkObj []), ("max level of traps", JVal.mkObj [])]

/-- The sum of the values stored under a key in one capacity table. -/
def tableSum (t : List (String × Int)) (k : String) : Int :=
  ((t.filter (fun kv => kv.1 == k)).map Prod.snd).sum

/-- Whether a capacity table has an entry for a key. -/
def tblHasKeyS (t : List (String × Int)) (k : String) : Bool :=
  t.any (fun kv => kv.1 == k)

/-- An int-valued capacity table as the JSON dict the source reads. -/
def objOfInt (t : List (String × Int)) : JVal :=
  JVal.mkObj (t.map (fun kv => (kv.1, JVal.int kv.2)))

/-- A footprint size record of the catalog. -/
def c78SizeJ (w h : Int) : JVal :=
  JVal.mkObj [("width", JVal.int w), ("height", JVal.int h)]

/-- A one-kind catalog: a cannon with the given footprint and max count. -/
def c78Catalog (w h m : Int) : Obj :=
  [("cannon", JVal.mkObj [
     ("size", c78SizeJ w h), ("inset", JVal.int 0), ("type", JVal.str "defense"),
     ("max count", JVal.int m), ("1", JVal.mkObj [])])]

/-- A raw single-instance building at grid position (px, py). -/
def c7Building (px py : Int) : Obj :=
  [("type", JVal.str "cannon"), ("level", JVal.int 1),
   ("x", JVal.int px), ("y", JVal.int py)]

/-- A raw multi-instance building declaring the given position list, plus
singleton (x, y) fields for the single-instance branch. -/
def c8Building (ps : List (Int × Int)) (x y : Int) : Obj :=
  [("type", JVal.str "cannon"), ("level", JVal.int 1),
   ("x", JVal.int x), ("y", JVal.int y),
   ("positions", JVal.arr (JArr.ofList
     (ps.map (fun p => JVal.mkArr [JVal.int p.1, JVal.int p.2]))))]

/-- The structure record the resolver produces for one cannon position. -/
def c8Expected (w h c : Int) (p : Int × Int) : Obj :=
  [("level", JVal.str "1"), ("name", JVal.str "cannon"), ("type", JVal.str "defense"),
   ("position", JVal.mkArr [JVal.int p.1, JVal.int p.2]),
   ("center", JVal.mkArr [JVal.int (computeCenter p.1 p.2 w h c).1,
                          JVal.int (computeCenter p.1 p.2 w h c).2]),
   ("size", c78SizeJ w h), ("inset", JVal.int 0)]

/-! ## Lemmas and claim theorems -/

theorem bindOk (a : α) (f : α → Except String β) : (Except.ok a >>= f) = f a := rfl

theorem bindErr (e : String) (f : α → Except String β) :
    (Except.error e >>= f) = Except.error e := rfl

theorem scanTownhallPrev_ok (cache : Obj) (st : ScanState) (b : Obj) (name : JVal) (lvl : Int)
    (tp : Option Obj × Option JVal)
    (h : scanTownhallPrev cache st b name lvl = Except.ok tp) :
    (tp.1 = st.townhall ∧ (name == JVal.str "townhall") = false) ∨
    (tp.1 = some b ∧ (name == JVal.str "townhall") = true) := by
  unfold scanTownhallPrev at h
  split at h
  next hn =>
    split at h
    next hg =>
      split at h
      next e heq => cases h
      next p heq => cases h; exact Or.inr ⟨rfl, hn⟩
    next hg => cases h; exact Or.inr ⟨rfl, hn⟩
  next hn => cases h; exact Or.inl ⟨rfl, by simpa using hn⟩

theorem scanTownhallPrev_error (cache : Obj) (st : ScanState) (b : Obj) (name : JVal)
    (lvl : Int) (e : String)
    (hn : (name == JVal.str "townhall") = true)
    (hL : 1 < lvl)
    (hc : Obj.hasKey cache "townhall" = true)
    (hi : JVal.index (Obj.get cache "townhall") (toString (lvl - 1)) = Except.error e) :
    scanTownhallPrev cache st b name lvl = Except.error e := by
  unfold scanTownhallPrev
  rw [hn, hc, hi]
  simp [hL]

theorem scanBuilding_error_of_missing_prev (cache : Obj) (b : Obj) (L : Int) (e : String)
    (hn : (Obj.get b "name" == JVal.str "townhall") = true)
    (hl : pyInt (Obj.get b "level") = Except.ok L)
    (hL : 1 < L)
    (hc : Obj.hasKey cache "townhall" = true)
    (hi : JVal.index (Obj.get cache "townhall") (toString (L - 1)) = Except.error e) :
    ∀ st, scanBuilding cache st b = Except.error e := by
  intro st
  unfold scanBuilding
  simp only [hl]
  simp only [scanTownhallPrev_error cache st b (Obj.get b "name") L e hn hL hc hi]

theorem scanList_error_of_mem (cache : Obj) (b : Obj) (e : String)
    (hb : ∀ st, scanBuilding cache st b = Except.error e) :
    ∀ bs, b ∈ bs → ∀ st0, ∃ f, scanList cache st0 bs = Except.error f := by
  intro bs
  induction bs with
  | nil => intro h; cases h
  | cons x xs ih =>
    intro hmem st0
    cases hx : scanBuilding cache st0 x with
    | error f => exact ⟨f, by unfold scanList; rw [hx, bindErr]⟩
    | ok st1 =>
      rcases List.mem_cons.mp hmem with rfl | hmem2
      · rw [hb st0] at hx; cases hx
      · obtain ⟨f, hf⟩ := ih hmem2 st1
        exact ⟨f, by unfold scanList; rw [hx, bindOk, hf]⟩

theorem validate_error_of_scan_error (bs : List Obj) (cache : Obj) (e : String)
    (h : scanList cache initScan bs = Except.error e) :
    validate_village bs cache = Except.error e := by
  unfold validate_village
  rw [h, bindErr]

theorem scan_no_townhall (cache : Obj) :
    ∀ (bs : List Obj) (st : ScanState),
    (∀ b ∈ bs, (Obj.get b "name" == JVal.str "townhall") = false) →
    (∀ b ∈ bs, (pyInt (Obj.get b "level")).isOk = true) →
    (∀ b ∈ bs, jHashable (Obj.get b "name") = true) →
    st.townhall = none →
    ∃ st2, scanList cache st bs = Except.ok st2 ∧ st2.townhall = none := by
  intro bs
  induction bs with
  | nil => exact fun st _ _ _ h => ⟨st, rfl, h⟩
  | cons x xs ih =>
    intro st h1 h2 h3 hth
    obtain ⟨L, hL⟩ : ∃ L, pyInt (Obj.get x "level") = Except.ok L := by
      cases hx : pyInt (Obj.get x "level") with
      | ok v => exact ⟨v, rfl⟩
      | error f =>
        have := h2 x (List.mem_cons_self x xs)
        rw [hx] at this
        cases this
    have hp : scanTownhallPrev cache st x (Obj.get x "name") L =
        Except.ok (st.townhall, st.previousTownhall) := by
      unfold scanTownhallPrev
      rw [h1 x (List.mem_cons_self x xs)]
      simp
    have hone : ∃ st1, scanBuilding cache st x = Except.ok st1 ∧ st1.townhall = none := by
      unfold scanBuilding
      simp only [hL, hp, h3 x (List.mem_cons_self x xs), if_true]
      cases hcj : containsJ st.positions (Obj.get x "positions")
      · exact ⟨{ valid := st.valid, warnings := st.warnings, townhall := st.townhall,
                 previousTownhall := st.previousTownhall,
                 current := curInsert st.current (Obj.get x "name") L,
                 positions := st.positions ++ [Obj.get x "positions"] },
               by rw [if_neg (show ¬(false = true) by decide)], hth⟩
      · exact ⟨{ valid := false,
                 warnings := st.warnings ++ [Warning.overlapping (Obj.get x "name")],
                 townhall := st.townhall, previousTownhall := st.previousTownhall,
                 current := curInsert st.current (Obj.get x "name") L,
                 positions := st.positions },
               by rw [if_pos (show true = true from rfl)], hth⟩
    obtain ⟨st1, hst1, hth1⟩ := hone
    obtain ⟨st2, hst2, hth2⟩ := ih st1 (fun b hbm => h1 b (List.mem_cons_of_mem x hbm))
      (fun b hbm => h2 b (List.mem_cons_of_mem x hbm))
      (fun b hbm => h3 b (List.mem_cons_of_mem x hbm)) hth1
    refine ⟨st2, ?_, hth2⟩
    unfold scanList
    rw [hst1, bindOk, hst2]

theorem scanBuilding_townhall_cases (cache : Obj) (st : ScanState) (b : Obj) (st2 : ScanState)
    (h : scanBuilding cache st b = Except.ok st2) :
    st2.townhall = st.townhall ∨
    (st2.townhall = some b ∧ (Obj.get b "name" == JVal.str "townhall") = true) := by
  unfold scanBuilding at h
  split at h
  next e heq => cases h
  next L heq =>
    split at h
    next e heq2 => cases h
    next tp heq2 =>
      split at h
      next hh =>
        split at h
        next hov =>
          cases h
          rcases scanTownhallPrev_ok cache st b (Obj.get b "name") L tp heq2 with
            ⟨h1, _⟩ | ⟨h1, h2⟩
          · exact Or.inl h1
          · exact Or.inr ⟨h1, h2⟩
        next hov =>
          cases h
          rcases scanTownhallPrev_ok cache st b (Obj.get b "name") L tp heq2 with
            ⟨h1, _⟩ | ⟨h1, h2⟩
          · exact Or.inl h1
          · exact Or.inr ⟨h1, h2⟩
      next hh => cases h

theorem scanTownhallPrev_fst (cache : Obj) (st : ScanState) (b : Obj) (name : JVal)
    (lvl : Int) (tp : Option Obj × Option JVal)
    (hn : (name == JVal.str "townhall") = true)
    (h : scanTownhallPrev cache st b name lvl = Except.ok tp) : tp.1 = some b := by
  unfold scanTownhallPrev at h
  rw [hn, if_pos (show true = true from rfl)] at h
  split at h
  next hg =>
    split at h
    next e heq => cases h
    next p heq => cases h; rfl
  next hg => cases h; rfl

theorem scanBuilding_townhall_set (cache : Obj) (st : ScanState) (b : Obj) (st2 : ScanState)
    (h : scanBuilding cache st b = Except.ok st2)
    (hn : (Obj.get b "name" == JVal.str "townhall") = true) :
    st2.townhall = some b := by
  unfold scanBuilding at h
  split at h
  next e heq => cases h
  next L heq =>
    split at h
    next e heq2 => cases h
    next tp heq2 =>
      have hfst := scanTownhallPrev_fst cache st b (Obj.get b "name") L tp hn heq2
      split at h
      next hh =>
        split at h
        next hov => cases h; exact hfst
        next hov => cases h; exact hfst
      next hh => cases h

/-- C2 (amended): for every structure list containing no townhall structure
in which every building survives the scan (its level converts to an int and
its name is hashable), validate_village returns an invalid verdict with an
empty warning list; the missing-townhall exit happens only after the whole
list has been scanned, so it is not a fail-fast. -/
theorem c2_no_townhall_invalid_after_scan (bs : List Obj) (cache : Obj)
    (h1 : ∀ b ∈ bs, (Obj.get b "name" == JVal.str "townhall") = false)
    (h2 : ∀ b ∈ bs, (pyInt (Obj.get b "level")).isOk = true)
    (h3 : ∀ b ∈ bs, jHashable (Obj.get b "name") = true) :
    validate_village bs cache = Except.ok (false, []) := by
  obtain ⟨st2, hst, hth⟩ := scan_no_townhall cache bs initScan h1 h2 h3 rfl
  unfold validate_village
  rw [hst, bindOk, hth]

/-- C3 (amended): for every village in which some townhall building has
level L with L greater than 1 while the cache holds townhall data without a
record for level L - 1, validate_village faults (the KeyError of the
previous-level subscript) instead of skipping the floor check. -/
theorem c3_missing_previous_level_faults (bs : List Obj) (cache : Obj) (b : Obj) (L : Int)
    (hb : b ∈ bs)
    (hn : (Obj.get b "name" == JVal.str "townhall") = true)
    (hl : pyInt (Obj.get b "level") = Except.ok L)
    (hL : 1 < L)
    (hc : Obj.hasKey cache "townhall" = true)
    (hi : (JVal.index (Obj.get cache "townhall") (toString (L - 1))).isOk = false) :
    ∃ e, validate_village bs cache = Except.error e := by
  cases hidx : JVal.index (Obj.get cache "townhall") (toString (L - 1)) with
  | ok v => rw [hidx] at hi; cases hi
  | error e =>
    have hall := scanBuilding_error_of_missing_prev cache b L e hn hl hL hc hidx
    obtain ⟨f, hf⟩ := scanList_error_of_mem cache b e hall bs hb initScan
    exact ⟨f, validate_error_of_scan_error bs cache f hf⟩

theorem scanBuilding_townhall_isSome (cache : Obj) (st : ScanState) (b : Obj) (st2 : ScanState)
    (h : scanBuilding cache st b = Except.ok st2)
    (hs : st.townhall.isSome = true) : st2.townhall.isSome = true := by
  rcases scanBuilding_townhall_cases cache st b st2 h with hc | ⟨hc, _⟩
  · rw [hc]; exact hs
  · rw [hc]; rfl

theorem scanList_townhall_isSome_mono (cache : Obj) :
    ∀ (bs : List Obj) (st st2 : ScanState), scanList cache st bs = Except.ok st2 →
    st.townhall.isSome = true → st2.townhall.isSome = true := by
  intro bs
  induction bs with
  | nil => intro st st2 h hs; unfold scanList at h; cases h; exact hs
  | cons x xs ih =>
    intro st st2 h hs
    unfold scanList at h
    cases hx : scanBuilding cache st x with
    | error e => rw [hx, bindErr] at h; cases h
    | ok st1 =>
      rw [hx, bindOk] at h
      exact ih st1 st2 h (scanBuilding_townhall_isSome cache st x st1 hx hs)

theorem scanList_townhall_isSome (cache : Obj) :
    ∀ (bs : List Obj) (st st2 : ScanState) (b : Obj), scanList cache st bs = Except.ok st2 →
    b ∈ bs → (Obj.get b "name" == JVal.str "townhall") = true →
    st2.townhall.isSome = true := by
  intro bs
  induction bs with
  | nil => intro st st2 b h hm; cases hm
  | cons x xs ih =>
    intro st st2 b h hm hn
    unfold scanList at h
    cases hx : scanBuilding cache st x with
    | error e => rw [hx, bindErr] at h; cases h
    | ok st1 =>
      rw [hx, bindOk] at h
      rcases List.mem_cons.mp hm with rfl | hm2
      · have hset := scanBuilding_townhall_set cache st b st1 hx hn
        exact scanList_townhall_isSome_mono cache xs st1 st2 h (by rw [hset]; rfl)
      · exact ih st1 st2 b h hm2 hn

theorem scanList_townhall_provenance (cache : Obj) :
    ∀ (bs : List Obj) (st st2 : ScanState), scanList cache st bs = Except.ok st2 →
    st2.townhall = st.townhall ∨
    ∃ b ∈ bs, st2.townhall = some b ∧ (Obj.get b "name" == JVal.str "townhall") = true := by
  intro bs
  induction bs with
  | nil => intro st st2 h; unfold scanList at h; cases h; exact Or.inl rfl
  | cons x xs ih =>
    intro st st2 h
    unfold scanList at h
    cases hx : scanBuilding cache st x with
    | error e => rw [hx, bindErr] at h; cases h
    | ok st1 =>
      rw [hx, bindOk] at h
      rcases ih st1 st2 h with h2 | ⟨b, hbm, hb1, hb2⟩
      · rcases scanBuilding_townhall_cases cache st x st1 hx with hA | ⟨hA, hA2⟩
        · exact Or.inl (h2.trans hA)
        · exact Or.inr ⟨x, List.mem_cons_self x xs, h2.trans hA, hA2⟩
      · exact Or.inr ⟨b, List.mem_cons_of_mem x hbm, hb1, hb2⟩

theorem mapExcept_error_of_mem (f : α → Except String β) (x : α) (e : String)
    (hx : f x = Except.error e) :
    ∀ l, x ∈ l → ∃ g, mapExcept f l = Except.error g := by
  intro l
  induction l with
  | nil => intro hm; cases hm
  | cons y ys ih =>
    intro hm
    cases hy : f y with
    | error g => exact ⟨g, by unfold mapExcept; rw [hy, bindErr]⟩
    | ok v =>
      rcases List.mem_cons.mp hm with rfl | hm2
      · rw [hx] at hy; cases hy
      · obtain ⟨g, hg⟩ := ih hm2
        exact ⟨g, by unfold mapExcept; rw [hy, bindOk, hg, bindErr]⟩

theorem combineAll_error_of_null_mem (vs : List JVal) (h : JVal.null ∈ vs) :
    ∃ e, combineAll vs = Except.error e := by
  obtain ⟨g, hg⟩ := mapExcept_error_of_mem toIntTable JVal.null
    "AttributeError: object has no attribute items" rfl vs h
  exact ⟨g, by unfold combineAll; rw [hg, bindErr]⟩

theorem Obj.get_eq_null_of_hasKey_false (o : Obj) (k : String)
    (h : Obj.hasKey o k = false) : Obj.get o k = JVal.null := by
  unfold Obj.get
  cases hf : o.find? (fun kv => kv.1 == k) with
  | some kv =>
    have hp := List.find?_some hf
    have hmem := List.mem_of_find?_eq_some hf
    unfold Obj.hasKey at h
    rw [List.any_eq_false] at h
    exact absurd hp (h kv hmem)
  | none => rfl

theorem validate_after_scan (bs : List Obj) (cache : Obj) (st : ScanState) (th : Obj)
    (hsc : scanList cache initScan bs = Except.ok st)
    (hth : st.townhall = some th) :
    validate_village bs cache = (do
      let maxCombinedCount ← combineAll (countKeys.map (Obj.get th))
      let maxCombinedLevel ← combineAll (levelKeys.map (Obj.get th))
      let r1 ← ceilingLoop maxCombinedCount maxCombinedLevel st.current st.valid st.warnings
      match st.previousTownhall with
      | none => Except.ok r1
      | some prev => do
        let minTables ← mapExcept (fun k => JVal.getE prev k) countKeys
        let minCombinedCount ← combineAll minTables
        Except.ok (floorLoop st.current minCombinedCount r1.1 r1.2)) := by
  unfold validate_village
  rw [hsc, bindOk, hth]

/-- C10: when a structure list contains a townhall and every townhall-named
structure lacks one of the eight capacity-table keys, validate_village faults
with an uncaught exception instead of returning a verdict. -/
theorem c10_missing_capacity_table_faults (bs : List Obj) (cache : Obj) (key : String)
    (hsome : ∃ b ∈ bs, (Obj.get b "name" == JVal.str "townhall") = true)
    (hmiss : ∀ b ∈ bs, (Obj.get b "name" == JVal.str "townhall") = true →
      Obj.hasKey b key = false)
    (hkey : key ∈ countKeys ++ levelKeys) :
    ∃ e, validate_village bs cache = Except.error e := by
  cases hsc : scanList cache initScan bs with
  | error e => exact ⟨e, validate_error_of_scan_error bs cache e hsc⟩
  | ok st =>
    obtain ⟨b, hbm, hbn⟩ := hsome
    have hs : st.townhall.isSome = true :=
      scanList_townhall_isSome cache bs initScan st b hsc hbm hbn
    rcases scanList_townhall_provenance cache bs initScan st hsc with hA | ⟨th, hthm, hth, hthn⟩
    · rw [hA] at hs; cases hs
    · have hget : Obj.get th key = JVal.null :=
        Obj.get_eq_null_of_hasKey_false th key (hmiss th hthm hthn)
      rw [validate_after_scan bs cache st th hsc hth]
      rcases List.mem_append.mp hkey with hkc | hkl
      · have hnull : JVal.null ∈ countKeys.map (Obj.get th) := by
          rw [← hget]
          exact List.mem_map_of_mem (Obj.get th) hkc
        obtain ⟨e, he⟩ := combineAll_error_of_null_mem _ hnull
        rw [he, bindErr]
        exact ⟨e, rfl⟩
      · cases hcc : combineAll (countKeys.map (Obj.get th)) with
        | error e => exact ⟨e, rfl⟩
        | ok mcc =>
          have hnull : JVal.null ∈ levelKeys.map (Obj.get th) := by
            rw [← hget]
            exact List.mem_map_of_mem (Obj.get th) hkl
          obtain ⟨e, he⟩ := combineAll_error_of_null_mem _ hnull
          rw [bindOk, he, bindErr]
          exact ⟨e, rfl⟩

theorem lookup_updAdd_self (k : String) (v : Int) :
    ∀ acc, List.lookup k (updAdd acc k v) = some ((List.lookup k acc).getD 0 + v) := by
  intro acc
  induction acc with
  | nil => simp [updAdd, List.lookup]
  | cons kv acc ih =>
    obtain ⟨k1, v1⟩ := kv
    by_cases hk : k1 = k
    · subst hk
      simp [updAdd, List.lookup]
    · have hk2 : (k1 == k) = false := beq_eq_false_iff_ne.mpr hk
      have hk3 : (k == k1) = false := beq_eq_false_iff_ne.mpr (Ne.symm hk)
      simp [updAdd, List.lookup, hk2, hk3, ih]

theorem lookup_updAdd_ne (k k2 : String) (v : Int) (h : k2 ≠ k) :
    ∀ acc, List.lookup k2 (updAdd acc k v) = List.lookup k2 acc := by
  intro acc
  induction acc with
  | nil => simp [updAdd, List.lookup, beq_eq_false_iff_ne.mpr h]
  | cons kv acc ih =>
    obtain ⟨k1, v1⟩ := kv
    by_cases hk : k1 = k
    · subst hk
      simp [updAdd, List.lookup, beq_eq_false_iff_ne.mpr h]
    · have hk2 : (k1 == k) = false := beq_eq_false_iff_ne.mpr hk
      by_cases hj : k2 = k1
      · subst hj
        simp [updAdd, List.lookup, hk2]
      · simp [updAdd, List.lookup, hk2, beq_eq_false_iff_ne.mpr hj, ih]

theorem tableSum_eq_zero (t : List (String × Int)) (k : String)
    (h : tblHasKeyS t k = false) : tableSum t k = 0 := by
  unfold tblHasKeyS at h
  rw [List.any_eq_false] at h
  unfold tableSum
  rw [List.filter_eq_nil_iff.mpr h]
  rfl

theorem lookup_combineInto (k : String) :
    ∀ (t acc : List (String × Int)), List.lookup k (combineInto acc t) =
      if tblHasKeyS t k then some ((List.lookup k acc).getD 0 + tableSum t k)
      else List.lookup k acc := by
  intro t
  induction t with
  | nil => intro acc; simp [combineInto, tblHasKeyS]
  | cons kv t ih =>
    intro acc
    obtain ⟨k1, v1⟩ := kv
    have hstep : combineInto acc ((k1, v1) :: t) = combineInto (updAdd acc k1 v1) t := rfl
    rw [hstep, ih (updAdd acc k1 v1)]
    by_cases hk : k1 = k
    · subst hk
      have hhead : tblHasKeyS ((k1, v1) :: t) k1 = true := by
        simp [tblHasKeyS]
      have hsum : tableSum ((k1, v1) :: t) k1 = v1 + tableSum t k1 := by
        simp [tableSum]
      rw [hhead, lookup_updAdd_self k1 v1 acc, hsum]
      cases hT : tblHasKeyS t k1
      · rw [tableSum_eq_zero t k1 hT]
        simp
      · simp [Int.add_assoc]
    · have hk2 : (k1 == k) = false := beq_eq_false_iff_ne.mpr hk
      have hhead : tblHasKeyS ((k1, v1) :: t) k = tblHasKeyS t k := by
        simp [tblHasKeyS, hk2]
      have hsum : tableSum ((k1, v1) :: t) k = tableSum t k := by
        simp [tableSum, hk2]
      rw [hhead, hsum, lookup_updAdd_ne k1 k v1 (Ne.symm hk) acc]

theorem mapTableSum_eq_zero (k : String) :
    ∀ ts : List (List (String × Int)), (ts.any fun t => tblHasKeyS t k) = false →
      (ts.map (fun t => tableSum t k)).sum = 0 := by
  intro ts
  induction ts with
  | nil => intro h; simp
  | cons t ts ih =>
    intro h
    rw [List.any_cons] at h
    rcases Bool.or_eq_false_iff.mp h with ⟨h1, h2⟩
    simp [tableSum_eq_zero t k h1, ih h2]

theorem lookup_combineFold (k : String) :
    ∀ (ts : List (List (String × Int))) (acc : List (String × Int)),
      List.lookup k (ts.foldl combineInto acc) =
      if ts.any (fun t => tblHasKeyS t k) then
        some ((List.lookup k acc).getD 0 + (ts.map (fun t => tableSum t k)).sum)
      else List.lookup k acc := by
  intro ts
  induction ts with
  | nil => intro acc; simp
  | cons t ts ih =>
    intro acc
    have hstep : (t :: ts).foldl combineInto acc = ts.foldl combineInto (combineInto acc t) := rfl
    rw [hstep, ih (combineInto acc t)]
    cases hT : tblHasKeyS t k <;> cases hTs : ts.any (fun t => tblHasKeyS t k)
    · simp [lookup_combineInto, hT, hTs]
    · simp [lookup_combineInto, hT, hTs, tableSum_eq_zero t k hT]
      try ring
    · simp [lookup_combineInto, hT, hTs, mapTableSum_eq_zero k ts hTs]
      try ring
    · simp [lookup_combineInto, hT, hTs]
      try ring

theorem jobj_toList_ofList : ∀ l : List (String × JVal), (JObj.ofList l).toList = l := by
  intro l
  induction l with
  | nil => rfl
  | cons kv rest ih =>
    obtain ⟨k, v⟩ := kv
    simp [JObj.ofList, JObj.toList, ih]

theorem toIntTable_objOfInt : ∀ t : List (String × Int), toIntTable (objOfInt t) = Except.ok t := by
  have inner : ∀ t : List (String × Int),
      mapExcept (fun kv => do
        let n ← pyIntVal kv.2
        Except.ok (kv.1, n)) (t.map (fun kv => (kv.1, JVal.int kv.2))) = Except.ok t := by
    intro t
    induction t with
    | nil => rfl
    | cons kv rest ih =>
      obtain ⟨k, v⟩ := kv
      simp only [List.map_cons]
      unfold mapExcept
      rw [show (do
          let n ← pyIntVal (JVal.int v)
          Except.ok (k, n) : Except String (String × Int)) = Except.ok (k, v) from rfl, bindOk,
        ih, bindOk]
  intro t
  unfold toIntTable objOfInt JVal.mkObj
  rw [show JVal.items (JVal.obj (JObj.ofList (t.map (fun kv => (kv.1, JVal.int kv.2))))) =
    Except.ok (JObj.ofList (t.map (fun kv => (kv.1, JVal.int kv.2)))).toList from rfl, bindOk,
    jobj_toList_ofList]
  exact inner t

theorem combineAll_objOfInt (t1 t2 t3 t4 : List (String × Int)) :
    combineAll [objOfInt t1, objOfInt t2, objOfInt t3, objOfInt t4] =
      Except.ok (combineAllPure [t1, t2, t3, t4]) := by
  unfold combineAll
  have hmap : mapExcept toIntTable [objOfInt t1, objOfInt t2, objOfInt t3, objOfInt t4] =
      Except.ok [t1, t2, t3, t4] := by
    simp [mapExcept, toIntTable_objOfInt, bindOk]
  rw [hmap, bindOk]

theorem tblHasKeyS_iff_mem (t : List (String × Int)) (k : String) :
    tblHasKeyS t k = true ↔ k ∈ t.map Prod.fst := by
  simp [tblHasKeyS, List.any_eq_true, List.mem_map, beq_iff_eq]

theorem lookup_eq_none_of_hasKey_false (t : List (String × Int)) (k : String)
    (h : tblHasKeyS t k = false) : List.lookup k t = none := by
  induction t with
  | nil => rfl
  | cons kv rest ih =>
    obtain ⟨k1, v1⟩ := kv
    unfold tblHasKeyS at h
    rw [List.any_cons] at h
    rcases Bool.or_eq_false_iff.mp h with ⟨h1, h2⟩
    have : (k == k1) = false :=
      beq_eq_false_iff_ne.mpr (Ne.symm (beq_eq_false_iff_ne.mp h1))
    simp [List.lookup, this, ih h2]

theorem lookup_isSome_of_hasKey (t : List (String × Int)) (k : String)
    (h : tblHasKeyS t k = true) : ∃ v, List.lookup k t = some v := by
  induction t with
  | nil => cases h
  | cons kv rest ih =>
    obtain ⟨k1, v1⟩ := kv
    by_cases hk : k = k1
    · subst hk
      exact ⟨v1, by simp [List.lookup]⟩
    · have hk2 : (k == k1) = false := beq_eq_false_iff_ne.mpr hk
      unfold tblHasKeyS at h
      rw [List.any_cons] at h
      rcases Bool.or_eq_true_iff.mp h with h1 | h2
      · exact absurd (eq_of_beq h1) (fun he => hk he.symm)
      · obtain ⟨v, hv⟩ := ih h2
        exact ⟨v, by simp [List.lookup, hk2, hv]⟩

theorem tableSum_eq_lookup (k : String) :
    ∀ t : List (String × Int), (t.map Prod.fst).Nodup →
      tableSum t k = (List.lookup k t).getD 0 := by
  intro t
  induction t with
  | nil => intro _; rfl
  | cons kv rest ih =>
    intro hnd
    obtain ⟨k1, v1⟩ := kv
    rw [List.map_cons, List.nodup_cons] at hnd
    by_cases hk : k1 = k
    · subst hk
      have hkeyrest : tblHasKeyS rest k1 = false := by
        cases hr : tblHasKeyS rest k1
        · rfl
        · exact absurd ((tblHasKeyS_iff_mem rest k1).mp hr) hnd.1
      have : tableSum ((k1, v1) :: rest) k1 = v1 + tableSum rest k1 := by simp [tableSum]
      rw [this, tableSum_eq_zero rest k1 hkeyrest]
      simp [List.lookup]
    · have hk2 : (k1 == k) = false := beq_eq_false_iff_ne.mpr hk
      have hk3 : (k == k1) = false := beq_eq_false_iff_ne.mpr (Ne.symm hk)
      have : tableSum ((k1, v1) :: rest) k = tableSum rest k := by simp [tableSum, hk2]
      rw [this, ih hnd.2]
      simp [List.lookup, hk3]

/-- C4: the combined table built by validate_village sums: a kind appearing
in at least one of the four tables maps to the sum of its values across all
four, a kind appearing in none is absent, and a kind appearing in exactly one
table keeps the value of that table unchanged. -/
theorem c4_combine_sum_semantics (t1 t2 t3 t4 : List (String × Int)) (k : String)
    (h1 : (t1.map Prod.fst).Nodup) (h2 : (t2.map Prod.fst).Nodup)
    (h3 : (t3.map Prod.fst).Nodup) (h4 : (t4.map Prod.fst).Nodup) :
    combineAll [objOfInt t1, objOfInt t2, objOfInt t3, objOfInt t4] =
      Except.ok (combineAllPure [t1, t2, t3, t4])
    ∧ (1 ≤ [t1, t2, t3, t4].countP (fun t => tblHasKeyS t k) →
        List.lookup k (combineAllPure [t1, t2, t3, t4]) =
          some ((List.lookup k t1).getD 0 + (List.lookup k t2).getD 0 +
                (List.lookup k t3).getD 0 + (List.lookup k t4).getD 0))
    ∧ ([t1, t2, t3, t4].countP (fun t => tblHasKeyS t k) = 0 →
        List.lookup k (combineAllPure [t1, t2, t3, t4]) = none)
    ∧ (∀ t ∈ [t1, t2, t3, t4], [t1, t2, t3, t4].countP (fun t => tblHasKeyS t k) = 1 →
        tblHasKeyS t k = true →
        List.lookup k (combineAllPure [t1, t2, t3, t4]) = List.lookup k t) := by
  have part1 : 1 ≤ [t1, t2, t3, t4].countP (fun t => tblHasKeyS t k) →
      List.lookup k (combineAllPure [t1, t2, t3, t4]) =
        some ((List.lookup k t1).getD 0 + (List.lookup k t2).getD 0 +
              (List.lookup k t3).getD 0 + (List.lookup k t4).getD 0) := by
    intro hcount
    have hA : ([t1, t2, t3, t4].any fun t => tblHasKeyS t k) = true := by
      rw [List.any_eq_true]
      exact List.countP_pos_iff.mp (Nat.lt_of_lt_of_le Nat.zero_lt_one hcount)
    unfold combineAllPure
    rw [lookup_combineFold k [t1, t2, t3, t4] [], hA, if_pos rfl]
    simp [tableSum_eq_lookup k t1 h1, tableSum_eq_lookup k t2 h2,
      tableSum_eq_lookup k t3 h3, tableSum_eq_lookup k t4 h4]
    ring
  refine ⟨combineAll_objOfInt t1 t2 t3 t4, part1, ?_, ?_⟩
  · intro hcount
    have hA : ([t1, t2, t3, t4].any fun t => tblHasKeyS t k) = false := by
      rw [List.any_eq_false]
      exact fun t hm => by
        have := List.countP_eq_zero.mp hcount t hm
        simpa using this
    unfold combineAllPure
    rw [lookup_combineFold k [t1, t2, t3, t4] [], hA, if_neg (by simp)]
    rfl
  · intro t hm hcount ht
    have hone : 1 ≤ [t1, t2, t3, t4].countP (fun t => tblHasKeyS t k) := by
      have : 0 < [t1, t2, t3, t4].countP (fun t => tblHasKeyS t k) :=
        List.countP_pos_iff.mpr ⟨t, hm, ht⟩
      omega
    have hsum := part1 hone
    have hm2 : t = t1 ∨ t = t2 ∨ t = t3 ∨ t = t4 := by simpa using hm
    rcases hm2 with rfl | rfl | rfl | rfl
    · have hrest : tblHasKeyS t2 k = false ∧ tblHasKeyS t3 k = false ∧
          tblHasKeyS t4 k = false := by
        cases hc2 : tblHasKeyS t2 k <;> cases hc3 : tblHasKeyS t3 k <;>
          cases hc4 : tblHasKeyS t4 k <;>
          simp_all [List.countP_cons, List.countP_nil]
      obtain ⟨v, hv⟩ := lookup_isSome_of_hasKey t k ht
      rw [hsum, hv, lookup_eq_none_of_hasKey_false t2 k hrest.1,
        lookup_eq_none_of_hasKey_false t3 k hrest.2.1,
        lookup_eq_none_of_hasKey_false t4 k hrest.2.2]
      simp
    · have hrest : tblHasKeyS t1 k = false ∧ tblHasKeyS t3 k = false ∧
          tblHasKeyS t4 k = false := by
        cases hc1 : tblHasKeyS t1 k <;> cases hc3 : tblHasKeyS t3 k <;>
          cases hc4 : tblHasKeyS t4 k <;>
          simp_all [List.countP_cons, List.countP_nil]
      obtain ⟨v, hv⟩ := lookup_isSome_of_hasKey t k ht
      rw [hsum, hv, lookup_eq_none_of_hasKey_false t1 k hrest.1,
        lookup_eq_none_of_hasKey_false t3 k hrest.2.1,
        lookup_eq_none_of_hasKey_false t4 k hrest.2.2]
      simp
    · have hrest : tblHasKeyS t1 k = false ∧ tblHasKeyS t2 k = false ∧
          tblHasKeyS t4 k = false := by
        cases hc1 : tblHasKeyS t1 k <;> cases hc2 : tblHasKeyS t2 k <;>
          cases hc4 : tblHasKeyS t4 k <;>
          simp_all [List.countP_cons, List.countP_nil]
      obtain ⟨v, hv⟩ := lookup_isSome_of_hasKey t k ht
      rw [hsum, hv, lookup_eq_none_of_hasKey_false t1 k hrest.1,
        lookup_eq_none_of_hasKey_false t2 k hrest.2.1,
        lookup_eq_none_of_hasKey_false t4 k hrest.2.2]
      simp
    · have hrest : tblHasKeyS t1 k = false ∧ tblHasKeyS t2 k = false ∧
          tblHasKeyS t3 k = false := by
        cases hc1 : tblHasKeyS t1 k <;> cases hc2 : tblHasKeyS t2 k <;>
          cases hc3 : tblHasKeyS t3 k <;>
          simp_all [List.countP_cons, List.countP_nil]
      obtain ⟨v, hv⟩ := lookup_isSome_of_hasKey t k ht
      rw [hsum, hv, lookup_eq_none_of_hasKey_false t1 k hrest.1,
        lookup_eq_none_of_hasKey_false t2 k hrest.2.1,
        lookup_eq_none_of_hasKey_false t3 k hrest.2.2]
      simp


theorem jarr_toList_ofList : ∀ l : List JVal, (JArr.ofList l).toList = l := by
  intro l
  induction l with
  | nil => rfl
  | cons v rest ih => simp [JArr.ofList, JArr.toList, ih]

theorem c8_loop (w h c m : Int) (bld : Obj) :
    ∀ ps : List (Int × Int),
    mapExcept (resolvePosition c bld (Obj.get (c78Catalog w h m) "cannon") "cannon" "1"
        (c78SizeJ w h) (JVal.int 0) (JVal.str "defense"))
      (ps.map (fun p => JVal.mkArr [JVal.int p.1, JVal.int p.2])) =
    Except.ok (ps.map (c8Expected w h c)) := by
  intro ps
  induction ps with
  | nil => rfl
  | cons p ps ih =>
    obtain ⟨a, b⟩ := p
    simp only [List.map_cons]
    unfold mapExcept
    rw [show resolvePosition c bld (Obj.get (c78Catalog w h m) "cannon") "cannon" "1"
        (c78SizeJ w h) (JVal.int 0) (JVal.str "defense") (JVal.mkArr [JVal.int a, JVal.int b])
        = Except.ok (c8Expected w h c (a, b)) from rfl, bindOk, ih, bindOk]

theorem c8_multi (w h c m x y : Int) (ps : List (Int × Int)) (hm : m ≠ 1) :
    generate_structures_list [c8Building ps x y] (c78Catalog w h m) c =
      Except.ok (ps.map (c8Expected w h c)) := by
  have hne : (JVal.int m == JVal.int 1) = false := by
    apply beq_eq_false_iff_ne.mpr
    intro hc
    injection hc with h2
    exact hm h2
  have step : resolveBuilding (c78Catalog w h m) c (c8Building ps x y) =
      (if (JVal.int m == JVal.int 1) = true then
        mapExcept (resolvePosition c (c8Building ps x y) (Obj.get (c78Catalog w h m) "cannon")
          "cannon" "1" (c78SizeJ w h) (JVal.int 0) (JVal.str "defense"))
          [JVal.mkArr [JVal.int x, JVal.int y]]
      else
        mapExcept (resolvePosition c (c8Building ps x y) (Obj.get (c78Catalog w h m) "cannon")
          "cannon" "1" (c78SizeJ w h) (JVal.int 0) (JVal.str "defense"))
          ((JArr.ofList (ps.map (fun p => JVal.mkArr [JVal.int p.1, JVal.int p.2]))).toList)) := by
    unfold resolveBuilding
    rfl
  have hrb : resolveBuilding (c78Catalog w h m) c (c8Building ps x y) =
      Except.ok (ps.map (c8Expected w h c)) := by
    rw [step, hne, if_neg (show ¬(false = true) by decide), jarr_toList_ofList,
      c8_loop w h c m (c8Building ps x y) ps]
  have hmap : mapExcept (resolveBuilding (c78Catalog w h m) c) [c8Building ps x y] =
      Except.ok [ps.map (c8Expected w h c)] := by
    simp [mapExcept, hrb, bindOk]
  unfold generate_structures_list
  rw [hmap, bindOk]
  simp

theorem c8_single (w h c x y : Int) (ps : List (Int × Int)) :
    generate_structures_list [c8Building ps x y] (c78Catalog w h 1) c =
      Except.ok [c8Expected w h c (x, y)] := rfl

/-- C7: a structure resolved at grid position (px, py) with cell size c gets
center computeCenter px py w h c; with even width 2 * qw and even height
2 * qh that center is exactly ((px + qw) * c, (py + qh) * c); an odd width
2 * qw + 1 adds the half cell (cell size fdiv 2, exactly qc when c = 2 * qc)
to the x-coordinate only, and an odd height to the y-coordinate only, each
axis independent of the parity of the other. -/
theorem c7_center_formula (px py w h c qw qh qc : Int) :
    generate_structures_list [c7Building px py] (c78Catalog w h 1) c =
      Except.ok [c8Expected w h c (px, py)]
    ∧ (w = 2 * qw → h = 2 * qh →
        computeCenter px py w h c = ((px + qw) * c, (py + qh) * c))
    ∧ (w = 2 * qw + 1 →
        (computeCenter px py w h c).1 = (px + qw) * c + Int.fdiv c 2)
    ∧ (h = 2 * qh + 1 →
        (computeCenter px py w h c).2 = (py + qh) * c + Int.fdiv c 2)
    ∧ (w = 2 * qw + 1 → c = 2 * qc →
        (computeCenter px py w h c).1 = (px + qw) * c + qc)
    ∧ (∀ h2, (computeCenter px py w h2 c).1 = (computeCenter px py w h c).1)
    ∧ (∀ w2, (computeCenter px py w2 h c).2 = (computeCenter px py w h c).2) := by
  refine ⟨rfl, ?_, ?_, ?_, ?_, fun h2 => rfl, fun w2 => rfl⟩
  · rintro rfl rfl
    have e1 : Int.emod (2 * qw) 2 = 0 := by show (2 * qw) % 2 = 0; omega
    have e2 : Int.emod (2 * qh) 2 = 0 := by show (2 * qh) % 2 = 0; omega
    have d1 : Int.fdiv (2 * qw) 2 = qw := by
      rw [Int.fdiv_eq_ediv _ (by omega)]; omega
    have d2 : Int.fdiv (2 * qh) 2 = qh := by
      rw [Int.fdiv_eq_ediv _ (by omega)]; omega
    simp [computeCenter, centerAxis, e1, e2, d1, d2]
  · rintro rfl
    have e1 : Int.emod (2 * qw + 1) 2 = 1 := by show (2 * qw + 1) % 2 = 1; omega
    have d1 : Int.fdiv (2 * qw + 1) 2 = qw := by
      rw [Int.fdiv_eq_ediv _ (by omega)]; omega
    simp [computeCenter, centerAxis, e1, d1]
  · rintro rfl
    have e1 : Int.emod (2 * qh + 1) 2 = 1 := by show (2 * qh + 1) % 2 = 1; omega
    have d1 : Int.fdiv (2 * qh + 1) 2 = qh := by
      rw [Int.fdiv_eq_ediv _ (by omega)]; omega
    simp [computeCenter, centerAxis, e1, d1]
  · rintro rfl rfl
    have e1 : Int.emod (2 * qw + 1) 2 = 1 := by show (2 * qw + 1) % 2 = 1; omega
    have d1 : Int.fdiv (2 * qw + 1) 2 = qw := by
      rw [Int.fdiv_eq_ediv _ (by omega)]; omega
    have d3 : Int.fdiv (2 * qc) 2 = qc := by
      rw [Int.fdiv_eq_ediv _ (by omega)]; omega
    simp [computeCenter, centerAxis, e1, d1, d3]

theorem centerAxis_inj (dim c : Int) (hc : c ≠ 0) (a b : Int)
    (h : centerAxis a dim c = centerAxis b dim c) : a = b := by
  unfold centerAxis at h
  split at h
  · have := mul_right_cancel₀ hc (add_right_cancel h)
    omega
  · have := mul_right_cancel₀ hc h
    omega

/-- C8: a raw building of a kind whose catalog max count is not 1 declaring
N positions resolves to exactly N structure records, each carrying the same
level, type and footprint size but its own position and center, and distinct
declared positions give distinct position fields and (for a positive cell
size) distinct centers; a kind whose catalog max count is 1 instead resolves
from its single (x, y) fields as a one-element position list. -/
theorem c8_multi_instance_expansion (w h c m x y : Int) (ps : List (Int × Int)) (hm : m ≠ 1) :
    generate_structures_list [c8Building ps x y] (c78Catalog w h m) c =
      Except.ok (ps.map (c8Expected w h c))
    ∧ (ps.map (c8Expected w h c)).length = ps.length
    ∧ (∀ p : Int × Int,
        Obj.get (c8Expected w h c p) "level" = JVal.str "1" ∧
        Obj.get (c8Expected w h c p) "type" = JVal.str "defense" ∧
        Obj.get (c8Expected w h c p) "size" = c78SizeJ w h ∧
        Obj.get (c8Expected w h c p) "position" = JVal.mkArr [JVal.int p.1, JVal.int p.2] ∧
        Obj.get (c8Expected w h c p) "center" =
          JVal.mkArr [JVal.int (computeCenter p.1 p.2 w h c).1,
                      JVal.int (computeCenter p.1 p.2 w h c).2])
    ∧ (∀ p q : Int × Int, p ≠ q →
        Obj.get (c8Expected w h c p) "position" ≠ Obj.get (c8Expected w h c q) "position" ∧
        (0 < c →
          Obj.get (c8Expected w h c p) "center" ≠ Obj.get (c8Expected w h c q) "center"))
    ∧ generate_structures_list [c8Building ps x y] (c78Catalog w h 1) c =
        Except.ok [c8Expected w h c (x, y)] := by
  refine ⟨c8_multi w h c m x y ps hm, List.length_map ps (c8Expected w h c), ?_, ?_,
    c8_single w h c x y ps⟩
  · intro p
    exact ⟨rfl, rfl, rfl, rfl, rfl⟩
  · intro p q hpq
    constructor
    · intro heq
      have hpos : JVal.mkArr [JVal.int p.1, JVal.int p.2] =
          JVal.mkArr [JVal.int q.1, JVal.int q.2] := heq
      simp [JVal.mkArr, JArr.ofList] at hpos
      exact hpq (Prod.ext hpos.1 hpos.2)
    · intro hcpos heq
      have hctr : JVal.mkArr [JVal.int (computeCenter p.1 p.2 w h c).1,
          JVal.int (computeCenter p.1 p.2 w h c).2] =
          JVal.mkArr [JVal.int (computeCenter q.1 q.2 w h c).1,
          JVal.int (computeCenter q.1 q.2 w h c).2] := heq
      simp [JVal.mkArr, JArr.ofList, computeCenter] at hctr
      have hx := centerAxis_inj w c (by omega) p.1 q.1 hctr.1
      have hy := centerAxis_inj h c (by omega) p.2 q.2 hctr.2
      exact hpq (Prod.ext hx hy)



theorem tblHasKeyJ_eq_false (t : List (String × Int)) (name : JVal)
    (h : tblLookupJ t name = none) : tblHasKeyJ t name = false := by
  unfold tblLookupJ at h
  cases hf : t.find? (fun kv => JVal.str kv.1 == name) with
  | some kv => rw [hf] at h; cases h
  | none =>
    rw [List.find?_eq_none] at hf
    unfold tblHasKeyJ
    rw [List.any_eq_false]
    exact hf

/-- C5 (amended): for a kind present in the village other than townhall that
is absent from the combined max-count table, the ceiling check of
validate_village emits exactly two warnings for that kind, the
not-found-in-townhall warning immediately followed by the count-not-found
warning, marks the verdict invalid, and skips the count and level checks for
that kind. -/
theorem c5_absent_kind_two_warnings (maxC maxL : List (String × Int)) (name : JVal)
    (levels : List Int)
    (h1 : tblLookupJ maxC name = none)
    (h2 : (name == JVal.str "townhall") = false) :
    ceilingEntry maxC maxL name levels =
      Except.ok (true, [Warning.notFoundInTownhall name, Warning.countNotFound name]) := by
  unfold ceilingEntry
  rw [h1, tblHasKeyJ_eq_false maxC name h1, h2]
  rfl

/-- C6 (amended): when the floor check applies, a kind of the combined
minimum-count table that is absent from the village earns a not-found warning
and invalidates the verdict, while a kind present fewer times than the
required minimum earns the count-is-less-than-required warning and
invalidates the verdict. -/
theorem c6_floor_check_warnings (cur : List (JVal × List Int)) (k : String) (minv : Int) :
    (curLookup cur (JVal.str k) = none →
      floorEntry cur k minv = (true, [Warning.notFound (JVal.str k)]))
    ∧ (∀ levels, curLookup cur (JVal.str k) = some levels →
        (levels.length : Int) < minv →
        floorEntry cur k minv = (true, [Warning.countLessThanRequired (JVal.str k)])) := by
  constructor
  · intro h
    unfold floorEntry
    rw [h]
  · intro levels h hlt
    unfold floorEntry
    rw [h]
    simp [hlt]

/-- C1 (failing input): a resolved structure set generated from a well-formed
village within every capacity limit, a level-1 townhall and one cannon at
distinct grid positions, is still reported invalid with an overlap warning
for the cannon: validate_village reads the key `positions`, which
generate_structures_list never sets (it sets `position`), so every structure
after the first appears to share the position set None. -/
theorem c1_overlap_misfire_eval :
    (do
      let s ← generate_structures_list c1Village c1Cache 10
      validate_village s c1Cache)
      = Except.ok (false, [Warning.overlapping (JVal.str "cannon")]) := by decide

/-- C2 (counterexample): a townhall-less list whose only building has a None
level makes validate_village fault in the scan instead of returning the
invalid verdict, so the function does inspect other buildings before the
missing-townhall exit. -/
theorem c2_counterexample :
    validate_village [c2Bad] [] = Except.error "TypeError: int() argument" := by decide

/-- C2 (witness). -/
theorem c2_witness :
    validate_village [[("name", JVal.str "cannon"), ("level", JVal.int 1)]] [] =
      Except.ok (false, []) :=
  c2_no_townhall_invalid_after_scan [[("name", JVal.str "cannon"), ("level", JVal.int 1)]] []
    (by decide) (by decide) (by decide)

/-- C3 (counterexample): a level-2 townhall with cached townhall data lacking
a record for level 1 makes validate_village raise a KeyError instead of
skipping the floor check and returning a verdict. -/
theorem c3_counterexample :
    validate_village [c3TH] c3Cache = Except.error "KeyError" := by decide

/-- C3 (witness). -/
theorem c3_witness : ∃ e, validate_village [c3TH] c3Cache = Except.error e :=
  c3_missing_previous_level_faults [c3TH] c3Cache c3TH 2 (by simp) (by decide) (by decide)
    (by decide) (by decide) (by decide)

/-- C4 (witness): a kind in two tables is summed, 2 + 3 = 5. -/
theorem c4_witness :
    List.lookup "cannon" (combineAllPure [[("cannon", 2), ("mortar", 1)], [("cannon", 3)], [], []])
      = some 5 := by
  have h := (c4_combine_sum_semantics [("cannon", 2), ("mortar", 1)] [("cannon", 3)] [] []
    "cannon" (by decide) (by decide) (by decide) (by decide)).2.1 (by decide)
  simpa using h

/-- C5 (counterexample): a cannon unknown to the townhall tables earns two
warnings mentioning it, not exactly one. -/
theorem c5_counterexample :
    validate_village [c5TH, c5Cannon] [] =
      Except.ok (false, [Warning.notFoundInTownhall (JVal.str "cannon"),
                         Warning.countNotFound (JVal.str "cannon")]) := by decide

/-- C5 (witness). -/
theorem c5_witness :
    ceilingEntry [] [] (JVal.str "gold mine") [1] =
      Except.ok (true, [Warning.notFoundInTownhall (JVal.str "gold mine"),
                        Warning.countNotFound (JVal.str "gold mine")]) :=
  c5_absent_kind_two_warnings [] [] (JVal.str "gold mine") [1] rfl (by decide)

/-- C6 (counterexample): a floor-check kind absent from the village earns the
not-found warning, not the count-is-less-than-required warning the claim
names. -/
theorem c6_counterexample :
    validate_village [c6TH] c6Cache =
      Except.ok (false, [Warning.notFound (JVal.str "army camp")]) := by decide

/-- C6 (witness). -/
theorem c6_witness :
    floorEntry [] "army camp" 2 = (true, [Warning.notFound (JVal.str "army camp")]) ∧
    floorEntry [(JVal.str "army camp", [1])] "army camp" 2 =
      (true, [Warning.countLessThanRequired (JVal.str "army camp")]) :=
  ⟨(c6_floor_check_warnings [] "army camp" 2).1 rfl,
   (c6_floor_check_warnings [(JVal.str "army camp", [1])] "army camp" 2).2 [1] rfl (by decide)⟩

/-- C7 (witness): a 4 x 3 cannon at (3, 4) with cell size 10. -/
theorem c7_witness :
    generate_structures_list [c7Building 3 4] (c78Catalog 4 3 1) 10 =
      Except.ok [c8Expected 4 3 10 (3, 4)] ∧
    (computeCenter 3 4 4 3 10).2 = (4 + 1) * 10 + Int.fdiv 10 2 ∧
    computeCenter 3 4 4 4 10 = ((3 + 2) * 10, (4 + 2) * 10) :=
  ⟨(c7_center_formula 3 4 4 3 10 2 1 5).1,
   (c7_center_formula 3 4 4 3 10 2 1 5).2.2.2.1 rfl,
   (c7_center_formula 3 4 4 4 10 2 2 5).2.1 rfl rfl⟩

/-- C8 (witness): two declared positions expand into two records with
distinct position fields. -/
theorem c8_witness :
    generate_structures_list [c8Building [(1, 1), (5, 5)] 0 0] (c78Catalog 3 3 5) 10 =
      Except.ok [c8Expected 3 3 10 (1, 1), c8Expected 3 3 10 (5, 5)] ∧
    Obj.get (c8Expected 3 3 10 (1, 1)) "position" ≠ Obj.get (c8Expected 3 3 10 (5, 5)) "position" :=
  ⟨(c8_multi_instance_expansion 3 3 10 5 0 0 [(1, 1), (5, 5)] (by decide)).1,
   ((c8_multi_instance_expansion 3 3 10 5 0 0 [(1, 1), (5, 5)] (by decide)).2.2.2.1
      (1, 1) (5, 5) (by decide)).1⟩

/-- C10 (witness): a townhall record missing the max-number-of-traps table. -/
theorem c10_witness : ∃ e, validate_village [c10TH] [] = Except.error e :=
  c10_missing_capacity_table_faults [c10TH] [] "max number of traps"
    ⟨c10TH, by simp, by decide⟩ (by decide) (by decide)

end ClashSim
